import Mathlib

/-!
Verification development for `obj2glb.py`, a CLI tool that converts every
`.obj` file under an input directory into one combined GLB scene.

The embedding follows the source program line by line.  The external
geometry library (trimesh) is consumed through the interface the program
uses: `load(path) -> Mesh | error`, `export(scene, path) -> bytes | error`,
a rotation-matrix constructor and a mesh-transform application.  The first
two and the last are oracles (parameters of the embedded `run`); the
rotation-matrix constructor is embedded concretely over the reals, since
the program builds a specific constant matrix with it.

Filesystem effects (creating `model/`, printing per-file errors, writing
the GLB) are recorded in an event trace so that ordering and absence of
writes can be stated.
-/

namespace Obj2Glb

/-! ## Path helpers (posixpath semantics used by the source) -/

/-- Test whether a string begins with the path separator, as Python's
`b.startswith('/')` inside `os.path.join`. -/
def startsWithSlash (s : String) : Bool :=
  s.data.head? = some '/'

/-- Test whether a string ends with the path separator, as Python's
`path.endswith('/')` inside `os.path.join`. -/
def endsWithSlash (s : String) : Bool :=
  s.data.getLast? = some '/'

/-- Embedding of `os.path.join(a, b)` (posixpath, two arguments): an
absolute second component replaces the first; otherwise the separator is
inserted unless the first part is empty or already ends with it. -/
def pjoin (a b : String) : String :=
  if startsWithSlash b then b
  else if a = "" || endsWithSlash a then a ++ b
  else a ++ "/" ++ b

/-- Embedding of Python's `str.endswith(t)`: `t` is a suffix of `s`. -/
def strEndsWith (s t : String) : Bool :=
  t.data.isSuffixOf s.data

/-- Embedding of `os.path.basename(p)` (posixpath): the part of `p` after
the last `'/'`, i.e. `p[p.rfind('/') + 1:]`. -/
def basename (p : String) : String :=
  String.mk ((p.data.reverse.takeWhile (fun c => c ≠ '/')).reverse)

/-- Index of the last occurrence of a character in a character list, the
counterpart of Python's `str.rfind` when the character occurs. -/
def lastIdxOf (c : Char) : List Char → Option Nat
  | [] => none
  | a :: as =>
    match lastIdxOf c as with
    | some i => some (i + 1)
    | none => if a = c then some 0 else none

/-- Embedding of the root component of `os.path.splitext(s)` for a path
without separators (the source applies it to a basename): split at the
last dot, except that a name consisting only of dots up to that last dot
(a leading-dot name such as `".obj"`) is not split. -/
def splitextRoot (s : String) : String :=
  match lastIdxOf '.' s.data with
  | none => s
  | some d =>
    if (s.data.take d).all (fun c => c = '.') then s
    else String.mk (s.data.take d)

/-! ## The rotation matrix built by the source

`trimesh.transformations.rotation_matrix(angle, direction, point)` is
embedded over the reals: Rodrigues' formula
`diag(cosa) + outer(d, d) * (1 - cosa) + skew(d * sina)` on the unit
direction, with translation `point - R @ point`. -/

/-- Homogeneous 3x4 transform: three linear rows plus a translation. -/
structure Mat4 where
  r0 : ℝ × ℝ × ℝ
  r1 : ℝ × ℝ × ℝ
  r2 : ℝ × ℝ × ℝ
  tr : ℝ × ℝ × ℝ

/-- Dot product of two 3-vectors. -/
def dot3 (a b : ℝ × ℝ × ℝ) : ℝ :=
  a.1 * b.1 + a.2.1 * b.2.1 + a.2.2 * b.2.2

/-- Action of a homogeneous transform on a point. -/
def Mat4.apply (A : Mat4) (v : ℝ × ℝ × ℝ) : ℝ × ℝ × ℝ :=
  (dot3 A.r0 v + A.tr.1, dot3 A.r1 v + A.tr.2.1, dot3 A.r2 v + A.tr.2.2)

/-- Embedding of `trimesh.transformations.unit_vector`: the vector divided
by its Euclidean norm. -/
noncomputable def unit_vector (v : ℝ × ℝ × ℝ) : ℝ × ℝ × ℝ :=
  let n := Real.sqrt (v.1 * v.1 + v.2.1 * v.2.1 + v.2.2 * v.2.2)
  (v.1 / n, v.2.1 / n, v.2.2 / n)

/-- Embedding of `np.radians`: degrees to radians. -/
noncomputable def radians (x : ℝ) : ℝ :=
  x * Real.pi / 180

/-- Embedding of `trimesh.transformations.rotation_matrix(angle,
direction, point)`. -/
noncomputable def rotation_matrix (angle : ℝ) (direction point : ℝ × ℝ × ℝ) : Mat4 :=
  let sina := Real.sin angle
  let cosa := Real.cos angle
  let u := unit_vector direction
  let dx := u.1
  let dy := u.2.1
  let dz := u.2.2
  let r0 : ℝ × ℝ × ℝ :=
    (cosa + dx * dx * (1 - cosa), dx * dy * (1 - cosa) - dz * sina,
      dx * dz * (1 - cosa) + dy * sina)
  let r1 : ℝ × ℝ × ℝ :=
    (dy * dx * (1 - cosa) + dz * sina, cosa + dy * dy * (1 - cosa),
      dy * dz * (1 - cosa) - dx * sina)
  let r2 : ℝ × ℝ × ℝ :=
    (dz * dx * (1 - cosa) - dy * sina, dz * dy * (1 - cosa) + dx * sina,
      cosa + dz * dz * (1 - cosa))
  ⟨r0, r1, r2,
    (point.1 - dot3 r0 point, point.2.1 - dot3 r1 point, point.2.2 - dot3 r2 point)⟩

/-- Matrix built once per loaded mesh by the source:
`rotation_matrix(angle=np.radians(-90), direction=[1,0,0], point=[0,0,0])`. -/
noncomputable def R90 : Mat4 :=
  rotation_matrix (radians (-90)) (1, 0, 0) (0, 0, 0)

/-! ## Command line arguments

`argparse` with one optional positional (`input_folder`, default `obj/`)
and one flag (`--output-name`/`-o`, default `model.glb`). -/

/-- Parsed command-line arguments with their argparse defaults. -/
structure Args where
  input_folder : String := "obj/"
  output_name : String := "model.glb"

/-- Arguments of a plain `python obj2glb.py` invocation. -/
def defaultArgs : Args := {}

/-! ## Filesystem and collaborator model

`os.path.exists`, `os.path.isdir` and `os.walk` are read-only queries
answered by the environment; `os.walk(dir)` yields a sequence of
`(root, files)` pairs (the `dirs` component is unused by the source).
`priorFiles` is the state of the rest of the disk before the run — for
example a previously written output GLB; the program never consults it. -/

/-- Filesystem environment the run observes. -/
structure FS where
  pathExists : String → Bool
  isDir : String → Bool
  walk : String → List (String × List String)
  priorFiles : String → Option String

/-- Observable filesystem effects of a run, in order of occurrence. -/
inductive Ev where
  | mkdirModel : Ev
  | printErr (path msg : String) : Ev
  | writeGlb (path content : String) : Ev
deriving DecidableEq

/-- Outcome of a run: the exit code, the ordered effect trace, the scene
contents handed to export, the `obj_files_found` counter, and the mesh
count reported by the success message (when one is printed). -/
structure RunResult (M : Type) where
  exitCode : Nat
  events : List Ev
  scene : List (String × M)
  objFilesFound : Nat
  printedCount : Option Nat
deriving DecidableEq

/-- Full path of a walked file: `os.path.join(root, file)`. -/
def objPath (e : String × String) : String :=
  pjoin e.1 e.2

/-- Node name for a walked file:
`os.path.splitext(os.path.basename(obj_path))[0]`. -/
def nodeName (e : String × String) : String :=
  splitextRoot (basename (objPath e))

/-- All `(root, file)` pairs produced by a walk, in yield order. -/
def walkEntries (ws : List (String × List String)) : List (String × String) :=
  ws.flatMap (fun rf => rf.2.map (fun f => (rf.1, f)))

/-- Files selected by the loop guard `file.endswith('.obj')`. -/
def selectEntries (ws : List (String × List String)) : List (String × String) :=
  (walkEntries ws).filter (fun e => strEndsWith e.2 ".obj")

/-- Body of the walk loop over the selected files: each file is loaded
through the `loader` oracle; a success is rotated by `R90` through the
`applyTr` oracle and appended to the scene under its node name; a failure
is logged and skipped. Returns the scene entries and the error prints, in
processing order. -/
noncomputable def processFiles {M : Type} (loader : String → Except String M)
    (applyTr : Mat4 → M → M) : List (String × String) → List (String × M) × List Ev
  | [] => ([], [])
  | e :: rest =>
    match loader (objPath e) with
    | Except.ok m =>
      let r := processFiles loader applyTr rest
      ((nodeName e, applyTr R90 m) :: r.1, r.2)
    | Except.error msg =>
      let r := processFiles loader applyTr rest
      (r.1, Ev.printErr (objPath e) msg :: r.2)

/-- Embedding of `main()`: existence and directory checks on the input
folder, creation of `model/`, the recursive walk with per-file load,
rotate and insert, the empty-scene check, and the export. `loader`,
`applyTr` and `exportFn` are the external library's `trimesh.load`,
`mesh.apply_transform` and `scene.export`. -/
noncomputable def run {M : Type} (loader : String → Except String M)
    (applyTr : Mat4 → M → M)
    (exportFn : List (String × M) → String → Except String String)
    (args : Args) (fs : FS) : RunResult M :=
  let obj_dir := args.input_folder
  if fs.pathExists obj_dir = false then ⟨1, [], [], 0, none⟩
  else if fs.isDir obj_dir = false then ⟨1, [], [], 0, none⟩
  else
    let output_glb := pjoin "model" args.output_name
    let objEntries := selectEntries (fs.walk obj_dir)
    let pr := processFiles loader applyTr objEntries
    if pr.1.isEmpty then
      ⟨1, Ev.mkdirModel :: pr.2, pr.1, objEntries.length, none⟩
    else
      match exportFn pr.1 output_glb with
      | Except.ok content =>
        ⟨0, Ev.mkdirModel :: (pr.2 ++ [Ev.writeGlb output_glb content]), pr.1,
          objEntries.length, some pr.1.length⟩
      | Except.error _ =>
        ⟨1, Ev.mkdirModel :: pr.2, pr.1, objEntries.length, none⟩

/-- Successfully loaded files among a list of entries, each paired with
the mesh the loader returned, in processing order. -/
def successes {M : Type} (loader : String → Except String M)
    (entries : List (String × String)) : List ((String × String) × M) :=
  entries.filterMap (fun e =>
    match loader (objPath e) with
    | Except.ok m => some (e, m)
    | Except.error _ => none)

/-! ## Directory trees

`os.walk` is recursive; for claim C6 the walk sequence is related to a
directory tree. A `DirTree` holds the plain files of a directory and its
named subtrees; `osWalk` is the top-down traversal `os.walk` performs. -/

/-- Directory tree: files of this directory and named subdirectories. -/
inductive DirTree : Type where
  | mk : List String → List (String × DirTree) → DirTree

/-- Top-down recursive traversal of a tree rooted at `path`, yielding
`(root, files)` pairs exactly as `os.walk` does. -/
def osWalk (path : String) : DirTree → List (String × List String)
  | DirTree.mk files subdirs =>
    (path, files) ::
      (subdirs.attach.map (fun sd => osWalk (pjoin path sd.1.1) sd.1.2)).flatten
termination_by t => sizeOf t
decreasing_by
  have h1 : sizeOf sd.1 < sizeOf subdirs := List.sizeOf_lt_of_mem sd.2
  have h2 : sizeOf sd.1.2 < sizeOf sd.1 := by
    obtain ⟨a, b⟩ := sd.1
    simp
  simp
  omega

/-- Membership of a file in a tree: `InTree ds f t` holds when descending
through the subdirectories named by `ds` from the root of `t` reaches a
directory that directly contains the file `f`. -/
inductive InTree : List String → String → DirTree → Prop where
  | here {files subdirs f} : f ∈ files → InTree [] f (DirTree.mk files subdirs)
  | there {files subdirs d t ds f} :
      (d, t) ∈ subdirs → InTree ds f t → InTree (d :: ds) f (DirTree.mk files subdirs)

/-- Path of the directory reached by descending through `ds` from `p`. -/
def joinAll (p : String) (ds : List String) : String :=
  ds.foldl pjoin p

/-! ## Concrete fixtures

Small concrete environments used to evaluate the embedded program on
explicit inputs: a trivial mesh type, loaders, exporters and directory
layouts. -/

/-- Loader that parses every file successfully (trivial mesh type). -/
def okLoader : String → Except String Unit :=
  fun _ => Except.ok ()

/-- Transform application for the trivial mesh type. -/
def idApply : Mat4 → Unit → Unit :=
  fun _ m => m

/-- Export oracle that always succeeds. -/
def okExport : List (String × Unit) → String → Except String String :=
  fun _ _ => Except.ok "glb-bytes"

/-- Export oracle that always fails. -/
def failExport : List (String × Unit) → String → Except String String :=
  fun _ _ => Except.error "disk full"

/-- Loader that fails exactly on `obj/bad.obj`. -/
def mixedLoader : String → Except String Unit :=
  fun p => if p = "obj/bad.obj" then Except.error "parse error" else Except.ok ()

/-- Existing input directory whose subdirectories `a` and `b` each hold a
file named `x.obj`. -/
def dupFS : FS :=
  { pathExists := fun _ => true, isDir := fun _ => true,
    walk := fun p => [(p, []), (pjoin p "a", ["x.obj"]), (pjoin p "b", ["x.obj"])],
    priorFiles := fun _ => none }

/-- Existing input directory holding a single file `x.obj`. -/
def oneFS : FS :=
  { pathExists := fun _ => true, isDir := fun _ => true,
    walk := fun p => [(p, ["x.obj"])],
    priorFiles := fun _ => none }

/-- Existing input directory holding `good.obj` and `bad.obj`. -/
def mixedFS : FS :=
  { pathExists := fun _ => true, isDir := fun _ => true,
    walk := fun p => [(p, ["good.obj", "bad.obj"])],
    priorFiles := fun _ => none }

/-- Existing input directory with files but no `.obj` file. -/
def emptyFS : FS :=
  { pathExists := fun _ => true, isDir := fun _ => true,
    walk := fun p => [(p, ["notes.txt"])],
    priorFiles := fun _ => none }

/-- Environment where the input path does not exist. -/
def missingFS : FS :=
  { pathExists := fun _ => false, isDir := fun _ => false,
    walk := fun _ => [], priorFiles := fun _ => none }

/-- Environment where the input path exists but is a plain file. -/
def notDirFS : FS :=
  { pathExists := fun _ => true, isDir := fun _ => false,
    walk := fun _ => [], priorFiles := fun _ => none }

/-- Variant of `oneFS` where an old output file is already on disk. -/
def oneFS2 : FS :=
  { pathExists := fun _ => true, isDir := fun _ => true,
    walk := fun p => [(p, ["x.obj"])],
    priorFiles := fun p => if p = "model/model.glb" then some "old-bytes" else none }

/-- Small directory tree: a text file at the root and a subdirectory with
one `.obj` file and one upper-case `FILE.OBJ`. -/
def demoTree : DirTree :=
  DirTree.mk ["readme.txt"] [("sub", DirTree.mk ["x.obj", "FILE.OBJ"] [])]

/-- Environment whose walk is the recursive traversal of `demoTree`. -/
def treeFS : FS :=
  { pathExists := fun _ => true, isDir := fun _ => true,
    walk := fun p => osWalk p demoTree,
    priorFiles := fun _ => none }

/-! ## General lemmas about the embedding -/

theorem radians_neg_ninety : radians (-90) = -(Real.pi / 2) := by
  unfold radians
  ring

theorem unit_vector_x : unit_vector (1, 0, 0) = (1, 0, 0) := by
  unfold unit_vector
  norm_num

theorem R90_apply (x y z : ℝ) : Mat4.apply R90 (x, y, z) = (x, z, -y) := by
  have hs : Real.sin (radians (-90)) = -1 := by
    rw [radians_neg_ninety, Real.sin_neg, Real.sin_pi_div_two]
  have hc : Real.cos (radians (-90)) = 0 := by
    rw [radians_neg_ninety, Real.cos_neg, Real.cos_pi_div_two]
  unfold R90 rotation_matrix
  rw [unit_vector_x, hs, hc]
  unfold Mat4.apply dot3
  norm_num

theorem processFiles_fst {M : Type} (loader : String → Except String M)
    (applyTr : Mat4 → M → M) (entries : List (String × String)) :
    (processFiles loader applyTr entries).1
      = (successes loader entries).map (fun em => (nodeName em.1, applyTr R90 em.2)) := by
  induction entries with
  | nil => rfl
  | cons e rest ih =>
    cases h : loader (objPath e) with
    | ok m => simp [processFiles, successes, h, ih, List.filterMap_cons]
    | error msg =>
      simp [processFiles, successes, h, List.filterMap_cons]
      simpa [successes] using ih

theorem processFiles_snd {M : Type} (loader : String → Except String M)
    (applyTr : Mat4 → M → M) (entries : List (String × String)) :
    (processFiles loader applyTr entries).2
      = entries.filterMap (fun e =>
          match loader (objPath e) with
          | Except.ok _ => none
          | Except.error msg => some (Ev.printErr (objPath e) msg)) := by
  induction entries with
  | nil => rfl
  | cons e rest ih =>
    cases h : loader (objPath e) with
    | ok m => simp [processFiles, h, List.filterMap_cons, ih]
    | error msg => simp [processFiles, h, List.filterMap_cons, ih]

theorem takeWhile_append_stop {p : Char → Bool} :
    ∀ (xs : List Char) {y : Char} (ys : List Char), (∀ x ∈ xs, p x = true) → p y = false →
      (xs ++ y :: ys).takeWhile p = xs
  | [], y, ys, _, hy => by simp [List.takeWhile_cons, hy]
  | x :: xs, y, ys, hxs, hy => by
    have hx : p x = true := hxs x (by simp)
    simp [List.takeWhile_cons, hx]
    exact takeWhile_append_stop xs ys (fun a ha => hxs a (by simp [ha])) hy

theorem basename_noSlash (f : String) (hf : ∀ c ∈ f.data, c ≠ '/') :
    basename f = f := by
  unfold basename
  have : f.data.reverse.takeWhile (fun c => c ≠ '/') = f.data.reverse := by
    apply List.takeWhile_eq_self_iff.mpr
    intro a ha
    simp only [List.mem_reverse] at ha
    simp [hf a ha]
  rw [this, List.reverse_reverse]

theorem basename_append_slash (s f : String) (hf : ∀ c ∈ f.data, c ≠ '/')
    (hs : s.data.getLast? = some '/') : basename (s ++ f) = f := by
  unfold basename
  rw [String.data_append]
  obtain ⟨t, ht⟩ : ∃ t, s.data.reverse = '/' :: t := by
    cases h : s.data.reverse with
    | nil => rw [List.getLast?_eq_head?_reverse, h] at hs; simp at hs
    | cons a t =>
      rw [List.getLast?_eq_head?_reverse, h] at hs
      simp at hs
      exact ⟨t, by rw [hs]⟩
  rw [List.reverse_append, ht]
  rw [takeWhile_append_stop f.data.reverse t
    (fun x hx => by simp [hf x (List.mem_reverse.mp hx)]) (by simp)]
  rw [List.reverse_reverse]

theorem basename_pjoin (r f : String) (hf : ∀ c ∈ f.data, c ≠ '/') :
    basename (pjoin r f) = f := by
  unfold pjoin
  have hns : startsWithSlash f = false := by
    unfold startsWithSlash
    cases h : f.data with
    | nil => simp [h]
    | cons a as =>
      have : a ≠ '/' := hf a (by simp [h])
      simp [h, this]
  rw [hns]
  simp only [Bool.false_eq_true, if_false]
  by_cases hr : r = "" ∨ endsWithSlash r = true
  · have : (r = "" || endsWithSlash r) = true := by
      rcases hr with h | h <;> simp [h]
    rw [if_pos this]
    rcases hr with h | h
    · subst h
      have : ("" : String) ++ f = f := String.ext (by simp [String.data_append])
      rw [this]
      exact basename_noSlash f hf
    · exact basename_append_slash r f hf (by unfold endsWithSlash at h; simpa using h)
  · have : (r = "" || endsWithSlash r) = false := by
      push_neg at hr
      simp [hr.1, hr.2]
    rw [if_neg (by simp [this])]
    have hassoc : r ++ "/" ++ f = (r ++ "/") ++ f := rfl
    rw [hassoc]
    apply basename_append_slash _ _ hf
    rw [String.data_append]
    simp

theorem nodeName_eq_splitextRoot {e : String × String} (hf : ∀ c ∈ e.2.data, c ≠ '/') :
    nodeName e = splitextRoot e.2 := by
  unfold nodeName objPath
  rw [basename_pjoin e.1 e.2 hf]

theorem processFiles_congr {M : Type} {loader₁ loader₂ : String → Except String M}
    (applyTr : Mat4 → M → M) :
    ∀ entries : List (String × String),
      (∀ e ∈ entries, loader₁ (objPath e) = loader₂ (objPath e)) →
      processFiles loader₁ applyTr entries = processFiles loader₂ applyTr entries
  | [], _ => rfl
  | e :: rest, h => by
    have he : loader₁ (objPath e) = loader₂ (objPath e) := h e (by simp)
    have ih := processFiles_congr applyTr rest (fun a ha => h a (by simp [ha]))
    cases h2 : loader₂ (objPath e) with
    | ok m => simp [processFiles, he, h2, ih]
    | error msg => simp [processFiles, he, h2, ih]

theorem mem_successes_fst {M : Type} {loader : String → Except String M}
    {entries : List (String × String)} {em : (String × String) × M}
    (h : em ∈ successes loader entries) : em.1 ∈ entries := by
  unfold successes at h
  rw [List.mem_filterMap] at h
  obtain ⟨a, ha, hfa⟩ := h
  cases hl : loader (objPath a) with
  | ok m => rw [hl] at hfa; simp at hfa; rw [← hfa]; exact ha
  | error msg => rw [hl] at hfa; simp at hfa

theorem successes_map_fst_sublist {M : Type} (loader : String → Except String M) :
    ∀ entries : List (String × String),
      List.Sublist ((successes loader entries).map Prod.fst) entries
  | [] => by simp [successes]
  | e :: rest => by
    have ih := successes_map_fst_sublist loader rest
    cases h : loader (objPath e) with
    | ok m =>
      simp [successes, List.filterMap_cons, h]
      exact (by simpa [successes] using ih)
    | error msg =>
      simp [successes, List.filterMap_cons, h]
      exact List.Sublist.cons e (by simpa [successes] using ih)

theorem successes_all_ok {M : Type} (loader : String → Except String M) :
    ∀ entries : List (String × String),
      (∀ e ∈ entries, ∃ m, loader (objPath e) = Except.ok m) →
      (successes loader entries).map Prod.fst = entries
  | [], _ => rfl
  | e :: rest, h => by
    obtain ⟨m, hm⟩ := h e (by simp)
    have ih := successes_all_ok loader rest (fun a ha => h a (by simp [ha]))
    simp [successes, List.filterMap_cons, hm]
    simpa [successes] using ih

theorem successes_ne_nil {M : Type} {loader : String → Except String M}
    {entries : List (String × String)} {e : String × String} {m : M}
    (he : e ∈ entries) (hm : loader (objPath e) = Except.ok m) :
    successes loader entries ≠ [] := by
  have : (e, m) ∈ successes loader entries := by
    unfold successes
    rw [List.mem_filterMap]
    exact ⟨e, he, by rw [hm]⟩
  intro hnil
  rw [hnil] at this
  simp at this

theorem run_nonexist {M : Type} (loader : String → Except String M)
    (applyTr : Mat4 → M → M)
    (exportFn : List (String × M) → String → Except String String)
    (args : Args) (fs : FS) (hex : fs.pathExists args.input_folder = false) :
    run loader applyTr exportFn args fs = ⟨1, [], [], 0, none⟩ := by
  unfold run
  simp [hex]

theorem run_nondir {M : Type} (loader : String → Except String M)
    (applyTr : Mat4 → M → M)
    (exportFn : List (String × M) → String → Except String String)
    (args : Args) (fs : FS) (hdir : fs.isDir args.input_folder = false) :
    run loader applyTr exportFn args fs = ⟨1, [], [], 0, none⟩ := by
  unfold run
  simp [hdir]

theorem run_dispatch {M : Type} (loader : String → Except String M)
    (applyTr : Mat4 → M → M)
    (exportFn : List (String × M) → String → Except String String)
    (args : Args) (fs : FS) (hex : fs.pathExists args.input_folder = true)
    (hdir : fs.isDir args.input_folder = true) :
    run loader applyTr exportFn args fs =
      (if (processFiles loader applyTr (selectEntries (fs.walk args.input_folder))).1.isEmpty then
        ⟨1, Ev.mkdirModel :: (processFiles loader applyTr (selectEntries (fs.walk args.input_folder))).2,
          (processFiles loader applyTr (selectEntries (fs.walk args.input_folder))).1,
          (selectEntries (fs.walk args.input_folder)).length, none⟩
      else
        match exportFn (processFiles loader applyTr (selectEntries (fs.walk args.input_folder))).1
            (pjoin "model" args.output_name) with
        | Except.ok content =>
          ⟨0, Ev.mkdirModel ::
              ((processFiles loader applyTr (selectEntries (fs.walk args.input_folder))).2 ++
                [Ev.writeGlb (pjoin "model" args.output_name) content]),
            (processFiles loader applyTr (selectEntries (fs.walk args.input_folder))).1,
            (selectEntries (fs.walk args.input_folder)).length,
            some (processFiles loader applyTr (selectEntries (fs.walk args.input_folder))).1.length⟩
        | Except.error _ =>
          ⟨1, Ev.mkdirModel :: (processFiles loader applyTr (selectEntries (fs.walk args.input_folder))).2,
            (processFiles loader applyTr (selectEntries (fs.walk args.input_folder))).1,
            (selectEntries (fs.walk args.input_folder)).length, none⟩) := by
  unfold run
  simp [hex, hdir]

theorem mem_walkEntries {ws : List (String × List String)} {r f : String} :
    (r, f) ∈ walkEntries ws ↔ ∃ fls, (r, fls) ∈ ws ∧ f ∈ fls := by
  simp only [walkEntries, List.mem_flatMap, List.mem_map]
  constructor
  · rintro ⟨⟨a, b⟩, hrf, g, hg, hgf⟩
    injection hgf with h1 h2
    subst h1
    subst h2
    exact ⟨b, hrf, hg⟩
  · rintro ⟨fls, hmem, hf⟩
    exact ⟨(r, fls), hmem, f, hf, rfl⟩

theorem mem_osWalk_subdir {files : List String} {subdirs : List (String × DirTree)}
    {d : String} {t : DirTree} (h : (d, t) ∈ subdirs) (p : String)
    {x : String × List String} (hx : x ∈ osWalk (pjoin p d) t) :
    x ∈ osWalk p (DirTree.mk files subdirs) := by
  rw [osWalk]
  apply List.mem_cons.mpr
  right
  exact List.mem_flatten.mpr
    ⟨osWalk (pjoin p d) t, List.mem_map.mpr ⟨⟨(d, t), h⟩, List.mem_attach _ _, rfl⟩, hx⟩

theorem inTree_mem_walk {t : DirTree} {ds : List String} {f : String}
    (h : InTree ds f t) : ∀ p, (joinAll p ds, f) ∈ walkEntries (osWalk p t) := by
  induction h with
  | here hf =>
    intro p
    rw [mem_walkEntries]
    refine ⟨_, ?_, hf⟩
    rw [osWalk]
    exact List.mem_cons_self _ _
  | @there files subdirs d t2 ds2 f2 hsub hin ih =>
    intro p
    have hjoin : joinAll p (d :: ds2) = joinAll (pjoin p d) ds2 := rfl
    rw [hjoin, mem_walkEntries]
    obtain ⟨fls, hmem, hf⟩ := mem_walkEntries.mp (ih (pjoin p d))
    exact ⟨fls, mem_osWalk_subdir hsub p hmem, hf⟩


theorem run_scene {M : Type} (loader : String → Except String M)
    (applyTr : Mat4 → M → M)
    (exportFn : List (String × M) → String → Except String String)
    (args : Args) (fs : FS) (hex : fs.pathExists args.input_folder = true)
    (hdir : fs.isDir args.input_folder = true) :
    (run loader applyTr exportFn args fs).scene
      = (processFiles loader applyTr (selectEntries (fs.walk args.input_folder))).1 := by
  rw [run_dispatch loader applyTr exportFn args fs hex hdir]
  split
  · rfl
  · split <;> rfl

/-- C1: for an input folder whose walk yields only valid OBJ files (every
selected file loads successfully), the scene handed to export has exactly
one named node per selected file, and the node names are, in order, the
source file names with their extension stripped. -/
theorem C1_valid_folder_nodes {M : Type} (loader : String → Except String M)
    (applyTr : Mat4 → M → M)
    (exportFn : List (String × M) → String → Except String String)
    (args : Args) (fs : FS)
    (hex : fs.pathExists args.input_folder = true)
    (hdir : fs.isDir args.input_folder = true)
    (hvalid : ∀ e ∈ selectEntries (fs.walk args.input_folder),
      ∃ m, loader (objPath e) = Except.ok m)
    (hslash : ∀ e ∈ selectEntries (fs.walk args.input_folder), ∀ c ∈ e.2.data, c ≠ '/') :
    (run loader applyTr exportFn args fs).scene.length
        = (selectEntries (fs.walk args.input_folder)).length
    ∧ (run loader applyTr exportFn args fs).scene.map Prod.fst
        = (selectEntries (fs.walk args.input_folder)).map (fun e => splitextRoot e.2) := by
  have hsc := run_scene loader applyTr exportFn args fs hex hdir
  rw [hsc, processFiles_fst]
  have hfst := successes_all_ok loader (selectEntries (fs.walk args.input_folder)) hvalid
  constructor
  · rw [List.length_map]
    calc (successes loader (selectEntries (fs.walk args.input_folder))).length
        = ((successes loader (selectEntries (fs.walk args.input_folder))).map Prod.fst).length := by
          rw [List.length_map]
      _ = (selectEntries (fs.walk args.input_folder)).length := by rw [hfst]
  · rw [List.map_map]
    have h1 : ((fun p => p.1) ∘ fun em : (String × String) × M => (nodeName em.1, applyTr R90 em.2))
        = fun em : (String × String) × M => nodeName em.1 := rfl
    have h2 : (fun em : (String × String) × M => nodeName em.1)
        = nodeName ∘ Prod.fst := rfl
    rw [h1, h2, ← List.map_map, hfst]
    apply List.map_congr_left
    intro e he
    exact nodeName_eq_splitextRoot (hslash e he)

theorem C1_valid_folder_nodes_witness :
    (run okLoader idApply okExport defaultArgs oneFS).scene.length
        = (selectEntries (oneFS.walk defaultArgs.input_folder)).length
    ∧ (run okLoader idApply okExport defaultArgs oneFS).scene.map Prod.fst
        = (selectEntries (oneFS.walk defaultArgs.input_folder)).map (fun e => splitextRoot e.2) :=
  C1_valid_folder_nodes okLoader idApply okExport defaultArgs oneFS rfl rfl
    (fun _ _ => ⟨(), rfl⟩) (by decide)


/-- C2 (amended): at every point of the walk (after any number `k` of
selected files have been processed) each scene entry's name equals its
source file's base name with the extension stripped and only successfully
loaded files have been inserted; the names are pairwise distinct whenever
the base names of the selected files are pairwise distinct. -/
theorem C2_scene_invariant {M : Type} (loader : String → Except String M)
    (applyTr : Mat4 → M → M) (args : Args) (fs : FS) (k : Nat)
    (hslash : ∀ e ∈ selectEntries (fs.walk args.input_folder), ∀ c ∈ e.2.data, c ≠ '/') :
    (processFiles loader applyTr ((selectEntries (fs.walk args.input_folder)).take k)).1
      = (successes loader ((selectEntries (fs.walk args.input_folder)).take k)).map
          (fun em => (splitextRoot em.1.2, applyTr R90 em.2))
    ∧ (((selectEntries (fs.walk args.input_folder)).map
          (fun e => splitextRoot e.2)).Pairwise (fun a b => a ≠ b) →
        ((processFiles loader applyTr
            ((selectEntries (fs.walk args.input_folder)).take k)).1.map
          Prod.fst).Pairwise (fun a b => a ≠ b)) := by
  have htake : ∀ e ∈ (selectEntries (fs.walk args.input_folder)).take k,
      e ∈ selectEntries (fs.walk args.input_folder) :=
    fun e he => List.mem_of_mem_take he
  have hnn : ∀ em ∈ successes loader ((selectEntries (fs.walk args.input_folder)).take k),
      nodeName em.1 = splitextRoot em.1.2 := by
    intro em hem
    exact nodeName_eq_splitextRoot (hslash em.1 (htake em.1 (mem_successes_fst hem)))
  constructor
  · rw [processFiles_fst]
    apply List.map_congr_left
    intro em hem
    rw [hnn em hem]
  · intro hpair
    rw [processFiles_fst, List.map_map]
    have h1 : ((fun p => p.1) ∘ fun em : (String × String) × M => (nodeName em.1, applyTr R90 em.2))
        = nodeName ∘ Prod.fst := rfl
    rw [h1, ← List.map_map]
    have hsub1 : List.Sublist
        ((successes loader ((selectEntries (fs.walk args.input_folder)).take k)).map Prod.fst)
        ((selectEntries (fs.walk args.input_folder)).take k) :=
      successes_map_fst_sublist loader _
    have hsub2 : List.Sublist
        ((successes loader ((selectEntries (fs.walk args.input_folder)).take k)).map Prod.fst)
        (selectEntries (fs.walk args.input_folder)) :=
      hsub1.trans (List.take_sublist k _)
    have hmapsub : List.Sublist
        (((successes loader ((selectEntries (fs.walk args.input_folder)).take k)).map
            Prod.fst).map nodeName)
        ((selectEntries (fs.walk args.input_folder)).map nodeName) := hsub2.map nodeName
    have heq : (selectEntries (fs.walk args.input_folder)).map nodeName
        = (selectEntries (fs.walk args.input_folder)).map (fun e => splitextRoot e.2) := by
      apply List.map_congr_left
      intro e he
      exact nodeName_eq_splitextRoot (hslash e he)
    exact List.Pairwise.sublist hmapsub (heq ▸ hpair)

theorem C2_scene_invariant_witness :
    (processFiles okLoader idApply ((selectEntries (oneFS.walk defaultArgs.input_folder)).take 1)).1
      = (successes okLoader ((selectEntries (oneFS.walk defaultArgs.input_folder)).take 1)).map
          (fun em => (splitextRoot em.1.2, idApply R90 em.2))
    ∧ (((selectEntries (oneFS.walk defaultArgs.input_folder)).map
          (fun e => splitextRoot e.2)).Pairwise (fun a b => a ≠ b) →
        ((processFiles okLoader idApply
            ((selectEntries (oneFS.walk defaultArgs.input_folder)).take 1)).1.map
          Prod.fst).Pairwise (fun a b => a ≠ b)) :=
  C2_scene_invariant okLoader idApply defaultArgs oneFS 1 (by decide)

/-- C2, counterexample to the claim as stated: in a tree whose
subdirectories `a` and `b` each contain a valid `x.obj`, the final scene
holds two entries both named `x`, so entry names are not unique. -/
theorem C2_cex_duplicate_names :
    ¬ (((run okLoader idApply okExport defaultArgs dupFS).scene.map
        Prod.fst).Pairwise (fun a b => a ≠ b)) := by decide


theorem no_write_in_processFiles {M : Type} (loader : String → Except String M)
    (applyTr : Mat4 → M → M) (entries : List (String × String)) (p c : String) :
    Ev.writeGlb p c ∉ (processFiles loader applyTr entries).2 := by
  rw [processFiles_snd]
  intro h
  rw [List.mem_filterMap] at h
  obtain ⟨a, _, ha⟩ := h
  cases hl : loader (objPath a) <;> rw [hl] at ha <;> simp at ha

/-- C5: the scene is exactly the successful loads, each transformed once
by the fixed matrix `R90` before insertion; and over the reals that matrix
maps `(x, y, z)` to `(x, z, -y)`. -/
theorem C5_fixed_rotation {M : Type} (loader : String → Except String M)
    (applyTr : Mat4 → M → M)
    (exportFn : List (String × M) → String → Except String String)
    (args : Args) (fs : FS)
    (hex : fs.pathExists args.input_folder = true)
    (hdir : fs.isDir args.input_folder = true) :
    (run loader applyTr exportFn args fs).scene
      = (successes loader (selectEntries (fs.walk args.input_folder))).map
          (fun em => (nodeName em.1, applyTr R90 em.2))
    ∧ ∀ x y z : ℝ, Mat4.apply R90 (x, y, z) = (x, z, -y) :=
  ⟨by rw [run_scene loader applyTr exportFn args fs hex hdir, processFiles_fst],
   fun x y z => R90_apply x y z⟩

theorem C5_fixed_rotation_witness :
    (run okLoader idApply okExport defaultArgs oneFS).scene
      = (successes okLoader (selectEntries (oneFS.walk defaultArgs.input_folder))).map
          (fun em => (nodeName em.1, idApply R90 em.2))
    ∧ Mat4.apply R90 (1, 2, 3) = (1, 3, -2) :=
  ⟨(C5_fixed_rotation okLoader idApply okExport defaultArgs oneFS rfl rfl).1,
   (C5_fixed_rotation okLoader idApply okExport defaultArgs oneFS rfl rfl).2 1 2 3⟩

/-- C3: the run exits 0 exactly when the GLB was written; a missing input
path, a non-directory input path, an empty selection, an empty scene and
a failing export each force exit code 1; and when no `.obj` file is
selected nothing is ever written. -/
theorem C3_exit_codes {M : Type} (loader : String → Except String M)
    (applyTr : Mat4 → M → M)
    (exportFn : List (String × M) → String → Except String String)
    (args : Args) (fs : FS) :
    ((run loader applyTr exportFn args fs).exitCode = 0 ↔
      ∃ c, Ev.writeGlb (pjoin "model" args.output_name) c
          ∈ (run loader applyTr exportFn args fs).events)
    ∧ (fs.pathExists args.input_folder = false →
        (run loader applyTr exportFn args fs).exitCode = 1)
    ∧ (fs.isDir args.input_folder = false →
        (run loader applyTr exportFn args fs).exitCode = 1)
    ∧ (selectEntries (fs.walk args.input_folder) = [] →
        (run loader applyTr exportFn args fs).exitCode = 1
        ∧ ∀ p c, Ev.writeGlb p c ∉ (run loader applyTr exportFn args fs).events)
    ∧ ((run loader applyTr exportFn args fs).scene = [] →
        (run loader applyTr exportFn args fs).exitCode = 1)
    ∧ (∀ msg, exportFn (run loader applyTr exportFn args fs).scene
          (pjoin "model" args.output_name) = Except.error msg →
        (run loader applyTr exportFn args fs).exitCode = 1) := by
  cases hex : fs.pathExists args.input_folder with
  | false =>
    rw [run_nonexist loader applyTr exportFn args fs hex]
    refine ⟨⟨fun h0 => absurd h0 (by simp), ?_⟩, fun _ => rfl, fun _ => rfl,
      fun _ => ⟨rfl, fun p c hc => absurd hc (by simp)⟩, fun _ => rfl, fun _ _ => rfl⟩
    rintro ⟨c, hc⟩
    exact absurd hc (by simp)
  | true =>
    cases hdir : fs.isDir args.input_folder with
    | false =>
      rw [run_nondir loader applyTr exportFn args fs hdir]
      refine ⟨⟨fun h0 => absurd h0 (by simp), ?_⟩, fun _ => rfl, fun _ => rfl,
        fun _ => ⟨rfl, fun p c hc => absurd hc (by simp)⟩, fun _ => rfl, fun _ _ => rfl⟩
      rintro ⟨c, hc⟩
      exact absurd hc (by simp)
    | true =>
      rw [run_dispatch loader applyTr exportFn args fs hex hdir]
      by_cases hempty :
          (processFiles loader applyTr (selectEntries (fs.walk args.input_folder))).1.isEmpty
      · rw [if_pos hempty]
        have hnw : ∀ p c, Ev.writeGlb p c ∉
            Ev.mkdirModel ::
              (processFiles loader applyTr (selectEntries (fs.walk args.input_folder))).2 := by
          intro p c hc
          rcases List.mem_cons.mp hc with h | h
          · exact Ev.noConfusion h
          · exact no_write_in_processFiles loader applyTr _ p c h
        refine ⟨⟨fun h0 => absurd h0 (by simp), ?_⟩, fun _ => rfl, fun _ => rfl,
          fun _ => ⟨rfl, hnw⟩, fun _ => rfl, fun _ _ => rfl⟩
        rintro ⟨c, hc⟩
        exact absurd hc (hnw _ c)
      · rw [if_neg hempty]
        cases hexp : exportFn
            (processFiles loader applyTr (selectEntries (fs.walk args.input_folder))).1
            (pjoin "model" args.output_name) with
        | ok c =>
          refine ⟨⟨fun _ => ⟨c, by simp⟩, fun _ => rfl⟩, ?_, ?_, ?_, ?_, ?_⟩
          · intro h
            simp [hex] at h
          · intro h
            simp [hdir] at h
          · intro h
            exfalso
            rw [h] at hempty
            exact hempty rfl
          · intro h
            exfalso
            have h2 : (processFiles loader applyTr
                (selectEntries (fs.walk args.input_folder))).1 = [] := h
            exact hempty (List.isEmpty_iff.mpr h2)
          · intro msg h
            exfalso
            have h2 : exportFn (processFiles loader applyTr
                (selectEntries (fs.walk args.input_folder))).1
                (pjoin "model" args.output_name) = Except.error msg := h
            rw [hexp] at h2
            exact Except.noConfusion h2
        | error msg =>
          have hnw : ∀ p c, Ev.writeGlb p c ∉
              Ev.mkdirModel ::
                (processFiles loader applyTr (selectEntries (fs.walk args.input_folder))).2 := by
            intro p c hc
            rcases List.mem_cons.mp hc with h | h
            · exact Ev.noConfusion h
            · exact no_write_in_processFiles loader applyTr _ p c h
          refine ⟨⟨fun h0 => absurd h0 (by simp), ?_⟩, fun _ => rfl, fun _ => rfl,
            fun _ => ⟨rfl, hnw⟩, fun _ => rfl, fun _ _ => rfl⟩
          rintro ⟨c, hc⟩
          exact absurd hc (hnw _ c)

theorem C3_exit_codes_witness :
    (run okLoader idApply okExport defaultArgs missingFS).exitCode = 1
    ∧ (run okLoader idApply okExport defaultArgs emptyFS).exitCode = 1
    ∧ Ev.writeGlb "model/model.glb" "glb-bytes"
        ∉ (run okLoader idApply okExport defaultArgs emptyFS).events
    ∧ (run okLoader idApply okExport defaultArgs oneFS).exitCode = 0 :=
  ⟨(C3_exit_codes okLoader idApply okExport defaultArgs missingFS).2.1 rfl,
   ((C3_exit_codes okLoader idApply okExport defaultArgs emptyFS).2.2.2.1 (by decide)).1,
   ((C3_exit_codes okLoader idApply okExport defaultArgs emptyFS).2.2.2.1
     (by decide)).2 "model/model.glb" "glb-bytes",
   (C3_exit_codes okLoader idApply okExport defaultArgs oneFS).1.mpr ⟨"glb-bytes", by decide⟩⟩

/-- C4: a file whose load fails is logged with its path and message and
skipped — the scene holds exactly the successful loads — and the run still
exits 0 when at least one load succeeded and export succeeds. -/
theorem C4_skip_failed {M : Type} (loader : String → Except String M)
    (applyTr : Mat4 → M → M)
    (exportFn : List (String × M) → String → Except String String)
    (args : Args) (fs : FS) (e : String × String) (msg : String)
    (hex : fs.pathExists args.input_folder = true)
    (hdir : fs.isDir args.input_folder = true)
    (he : e ∈ selectEntries (fs.walk args.input_folder))
    (herr : loader (objPath e) = Except.error msg) :
    Ev.printErr (objPath e) msg ∈ (run loader applyTr exportFn args fs).events
    ∧ (run loader applyTr exportFn args fs).scene
        = (successes loader (selectEntries (fs.walk args.input_folder))).map
            (fun em => (nodeName em.1, applyTr R90 em.2))
    ∧ ((∃ e2, e2 ∈ selectEntries (fs.walk args.input_folder)
          ∧ ∃ m, loader (objPath e2) = Except.ok m) →
        ∀ c, exportFn (run loader applyTr exportFn args fs).scene
            (pjoin "model" args.output_name) = Except.ok c →
          (run loader applyTr exportFn args fs).exitCode = 0) := by
  have hpe : Ev.printErr (objPath e) msg ∈
      (processFiles loader applyTr (selectEntries (fs.walk args.input_folder))).2 := by
    rw [processFiles_snd, List.mem_filterMap]
    exact ⟨e, he, by rw [herr]⟩
  have hscene := run_scene loader applyTr exportFn args fs hex hdir
  refine ⟨?_, by rw [hscene, processFiles_fst], ?_⟩
  · rw [run_dispatch loader applyTr exportFn args fs hex hdir]
    by_cases hempty :
        (processFiles loader applyTr (selectEntries (fs.walk args.input_folder))).1.isEmpty
    · rw [if_pos hempty]
      exact List.mem_cons.mpr (Or.inr hpe)
    · rw [if_neg hempty]
      cases hexp : exportFn
          (processFiles loader applyTr (selectEntries (fs.walk args.input_folder))).1
          (pjoin "model" args.output_name) with
      | ok c => exact List.mem_cons.mpr (Or.inr (List.mem_append_left _ hpe))
      | error m2 => exact List.mem_cons.mpr (Or.inr hpe)
  · rintro ⟨e2, he2, m, hm⟩ c hc
    have hne : (processFiles loader applyTr (selectEntries (fs.walk args.input_folder))).1 ≠ [] := by
      rw [processFiles_fst]
      intro hnil
      exact successes_ne_nil he2 hm (List.map_eq_nil_iff.mp hnil)
    have hemptyf : ¬ ((processFiles loader applyTr
        (selectEntries (fs.walk args.input_folder))).1.isEmpty = true) :=
      fun h => hne (List.isEmpty_iff.mp h)
    rw [hscene] at hc
    rw [run_dispatch loader applyTr exportFn args fs hex hdir, if_neg hemptyf, hc]

theorem C4_skip_failed_witness :
    Ev.printErr "obj/bad.obj" "parse error"
        ∈ (run mixedLoader idApply okExport defaultArgs mixedFS).events
    ∧ (run mixedLoader idApply okExport defaultArgs mixedFS).exitCode = 0 :=
  ⟨(C4_skip_failed mixedLoader idApply okExport defaultArgs mixedFS
      ("obj/", "bad.obj") "parse error" rfl rfl (by decide) rfl).1,
   (C4_skip_failed mixedLoader idApply okExport defaultArgs mixedFS
      ("obj/", "bad.obj") "parse error" rfl rfl (by decide) rfl).2.2
     ⟨("obj/", "good.obj"), by decide, (), rfl⟩ "glb-bytes" rfl⟩

/-- C6: the walk is recursive — every file reachable through any chain of
subdirectories appears among the walked entries — and a walked file is
selected iff its name ends with the case-sensitive suffix ".obj"; the
upper-case name "FILE.OBJ" is never selected. -/
theorem C6_recursive_case_sensitive (fs : FS) (args : Args) (t : DirTree)
    (ds : List String) (f : String)
    (hw : fs.walk args.input_folder = osWalk args.input_folder t)
    (hin : InTree ds f t) :
    (joinAll args.input_folder ds, f) ∈ walkEntries (fs.walk args.input_folder)
    ∧ ((joinAll args.input_folder ds, f) ∈ selectEntries (fs.walk args.input_folder)
        ↔ strEndsWith f ".obj" = true)
    ∧ (∀ ws r, (r, "FILE.OBJ") ∉ selectEntries ws) := by
  have hmem : (joinAll args.input_folder ds, f) ∈ walkEntries (fs.walk args.input_folder) := by
    rw [hw]
    exact inTree_mem_walk hin args.input_folder
  refine ⟨hmem, ?_, ?_⟩
  · unfold selectEntries
    rw [List.mem_filter]
    exact ⟨fun h => h.2, fun hsel => ⟨hmem, hsel⟩⟩
  · intro ws r hmem2
    unfold selectEntries at hmem2
    rw [List.mem_filter] at hmem2
    exact absurd (show strEndsWith "FILE.OBJ" ".obj" = true from hmem2.2) (by decide)

theorem C6_recursive_case_sensitive_witness :
    (joinAll defaultArgs.input_folder ["sub"], "x.obj")
        ∈ walkEntries (treeFS.walk defaultArgs.input_folder)
    ∧ ((joinAll defaultArgs.input_folder ["sub"], "x.obj")
        ∈ selectEntries (treeFS.walk defaultArgs.input_folder)
        ↔ strEndsWith "x.obj" ".obj" = true)
    ∧ ("obj/sub", "FILE.OBJ") ∉ selectEntries (treeFS.walk defaultArgs.input_folder) := by
  have hin : InTree ["sub"] "x.obj" demoTree := by
    show InTree ["sub"] "x.obj"
      (DirTree.mk ["readme.txt"] [("sub", DirTree.mk ["x.obj", "FILE.OBJ"] [])])
    exact InTree.there (List.mem_singleton.mpr rfl) (InTree.here (by simp))
  have h := C6_recursive_case_sensitive treeFS defaultArgs demoTree ["sub"] "x.obj" rfl hin
  exact ⟨h.1, h.2.1, h.2.2 (treeFS.walk defaultArgs.input_folder) "obj/sub"⟩

/-- C7 (amended): when the output name is not an absolute path the GLB is
written to `model/` ++ the output name; the positional input folder
defaults to `obj/` and the output name to `model.glb`. -/
theorem C7_output_path {M : Type} (loader : String → Except String M)
    (applyTr : Mat4 → M → M)
    (exportFn : List (String × M) → String → Except String String)
    (args : Args) (fs : FS) (c : String)
    (hex : fs.pathExists args.input_folder = true)
    (hdir : fs.isDir args.input_folder = true)
    (hrel : startsWithSlash args.output_name = false)
    (hne : (run loader applyTr exportFn args fs).scene ≠ [])
    (hexp : exportFn (run loader applyTr exportFn args fs).scene
        (pjoin "model" args.output_name) = Except.ok c) :
    Ev.writeGlb ("model/" ++ args.output_name) c
        ∈ (run loader applyTr exportFn args fs).events
    ∧ defaultArgs.input_folder = "obj/"
    ∧ defaultArgs.output_name = "model.glb" := by
  have hpj : pjoin "model" args.output_name = "model/" ++ args.output_name := by
    unfold pjoin
    rw [hrel]
    simp only [Bool.false_eq_true, if_false]
    rw [if_neg (by decide)]
    rfl
  have hscene := run_scene loader applyTr exportFn args fs hex hdir
  rw [hscene] at hne hexp
  have hemptyf : ¬ ((processFiles loader applyTr
      (selectEntries (fs.walk args.input_folder))).1.isEmpty = true) :=
    fun h => hne (List.isEmpty_iff.mp h)
  refine ⟨?_, rfl, rfl⟩
  rw [run_dispatch loader applyTr exportFn args fs hex hdir, if_neg hemptyf, hexp, ← hpj]
  exact List.mem_cons.mpr (Or.inr (List.mem_append_right _ (by simp)))

theorem C7_output_path_witness :
    Ev.writeGlb ("model/" ++ defaultArgs.output_name) "glb-bytes"
        ∈ (run okLoader idApply okExport defaultArgs oneFS).events
    ∧ defaultArgs.input_folder = "obj/"
    ∧ defaultArgs.output_name = "model.glb" :=
  C7_output_path okLoader idApply okExport defaultArgs oneFS "glb-bytes"
    rfl rfl rfl (by decide) rfl

/-- C7, counterexample to the claim as stated: with `--output-name
"/x.glb"` the GLB is written to `/x.glb`, not to `model//x.glb`. -/
theorem C7_cex_absolute_output :
    Ev.writeGlb "/x.glb" "glb-bytes"
        ∈ (run okLoader idApply okExport { output_name := "/x.glb" } oneFS).events
    ∧ Ev.writeGlb ("model/" ++ "/x.glb") "glb-bytes"
        ∉ (run okLoader idApply okExport { output_name := "/x.glb" } oneFS).events
    ∧ ("/x.glb" : String) ≠ "model/" ++ "/x.glb" :=
  ⟨by decide, by decide, by decide⟩

/-- C8: the run is a function of the input folder's observable content
(existence, directory-ness, walk result and the loader's answers on the
selected files), the arguments and the library oracles; any prior state
of the output directory is irrelevant, so a second identical run
reproduces the same trace, including the same written bytes. -/
theorem C8_deterministic {M : Type} (loader₁ loader₂ : String → Except String M)
    (applyTr : Mat4 → M → M)
    (exportFn : List (String × M) → String → Except String String)
    (args : Args) (fs₁ fs₂ : FS)
    (hex : fs₁.pathExists args.input_folder = fs₂.pathExists args.input_folder)
    (hdir : fs₁.isDir args.input_folder = fs₂.isDir args.input_folder)
    (hwalk : fs₁.walk args.input_folder = fs₂.walk args.input_folder)
    (hload : ∀ e ∈ selectEntries (fs₁.walk args.input_folder),
        loader₁ (objPath e) = loader₂ (objPath e)) :
    run loader₁ applyTr exportFn args fs₁ = run loader₂ applyTr exportFn args fs₂ := by
  cases h1 : fs₂.pathExists args.input_folder with
  | false =>
    rw [run_nonexist loader₁ applyTr exportFn args fs₁ (hex.trans h1),
      run_nonexist loader₂ applyTr exportFn args fs₂ h1]
  | true =>
    cases h2 : fs₂.isDir args.input_folder with
    | false =>
      rw [run_nondir loader₁ applyTr exportFn args fs₁ (hdir.trans h2),
        run_nondir loader₂ applyTr exportFn args fs₂ h2]
    | true =>
      rw [run_dispatch loader₁ applyTr exportFn args fs₁ (hex.trans h1) (hdir.trans h2),
        run_dispatch loader₂ applyTr exportFn args fs₂ h1 h2, hwalk,
        show processFiles loader₁ applyTr (selectEntries (fs₂.walk args.input_folder))
            = processFiles loader₂ applyTr (selectEntries (fs₂.walk args.input_folder)) from by
          rw [← hwalk]
          exact processFiles_congr applyTr _ hload]

theorem C8_deterministic_witness :
    run okLoader idApply okExport defaultArgs oneFS
      = run okLoader idApply okExport defaultArgs oneFS2 :=
  C8_deterministic okLoader okLoader idApply okExport defaultArgs oneFS oneFS2
    rfl rfl rfl (fun _ _ => rfl)

/-- C9: the `model/` directory creation happens iff the input path exists
and is a directory; otherwise the run exits 1 having performed no
filesystem effect; and when it happens it is the first effect of the run,
before the walk — so `model/` exists even if the run later exits 1. -/
theorem C9_mkdir_model {M : Type} (loader : String → Except String M)
    (applyTr : Mat4 → M → M)
    (exportFn : List (String × M) → String → Except String String)
    (args : Args) (fs : FS) :
    (Ev.mkdirModel ∈ (run loader applyTr exportFn args fs).events ↔
      (fs.pathExists args.input_folder = true ∧ fs.isDir args.input_folder = true))
    ∧ ((fs.pathExists args.input_folder = false ∨ fs.isDir args.input_folder = false) →
        (run loader applyTr exportFn args fs).exitCode = 1
        ∧ (run loader applyTr exportFn args fs).events = [])
    ∧ (fs.pathExists args.input_folder = true → fs.isDir args.input_folder = true →
        (run loader applyTr exportFn args fs).events.head? = some Ev.mkdirModel) := by
  cases hex : fs.pathExists args.input_folder with
  | false =>
    rw [run_nonexist loader applyTr exportFn args fs hex]
    refine ⟨by simp, fun _ => ⟨rfl, rfl⟩, ?_⟩
    intro h1 _
    simp [hex] at h1
  | true =>
    cases hdir : fs.isDir args.input_folder with
    | false =>
      rw [run_nondir loader applyTr exportFn args fs hdir]
      refine ⟨by simp [hdir], fun _ => ⟨rfl, rfl⟩, ?_⟩
      intro _ h2
      simp [hdir] at h2
    | true =>
      have hhead : (run loader applyTr exportFn args fs).events.head? = some Ev.mkdirModel := by
        rw [run_dispatch loader applyTr exportFn args fs hex hdir]
        by_cases hempty :
            (processFiles loader applyTr (selectEntries (fs.walk args.input_folder))).1.isEmpty
        · rw [if_pos hempty]
          rfl
        · rw [if_neg hempty]
          cases hexp : exportFn
              (processFiles loader applyTr (selectEntries (fs.walk args.input_folder))).1
              (pjoin "model" args.output_name) with
          | ok c => rfl
          | error msg => rfl
      refine ⟨⟨fun _ => ⟨rfl, rfl⟩, fun _ => ?_⟩, ?_, fun _ _ => hhead⟩
      · cases hev : (run loader applyTr exportFn args fs).events with
        | nil =>
          rw [hev] at hhead
          exact Option.noConfusion hhead
        | cons a l =>
          rw [hev] at hhead
          have ha : a = Ev.mkdirModel := by
            simp only [List.head?] at hhead
            exact Option.some.inj hhead
          rw [← ha]
          exact List.mem_cons_self _ _
      · rintro (h | h)
        · simp [hex] at h
        · simp [hdir] at h

theorem C9_mkdir_model_witness :
    ((run okLoader idApply okExport defaultArgs missingFS).exitCode = 1
      ∧ (run okLoader idApply okExport defaultArgs missingFS).events = [])
    ∧ (run okLoader idApply okExport defaultArgs emptyFS).events.head? = some Ev.mkdirModel
    ∧ Ev.mkdirModel ∈ (run okLoader idApply okExport defaultArgs oneFS).events :=
  ⟨(C9_mkdir_model okLoader idApply okExport defaultArgs missingFS).2.1 (Or.inl rfl),
   (C9_mkdir_model okLoader idApply okExport defaultArgs emptyFS).2.2 rfl rfl,
   (C9_mkdir_model okLoader idApply okExport defaultArgs oneFS).1.mpr ⟨rfl, rfl⟩⟩

/-- C10 (amended): with a valid input directory, the run exits 1 iff the
scene is empty after the walk or the export fails; on success the printed
count is the scene's entry count; and the obj-file counter — used only to
pick the failure message — counts the selected files, which can exceed
the scene count when loads fail. -/
theorem C10_scene_driven {M : Type} (loader : String → Except String M)
    (applyTr : Mat4 → M → M)
    (exportFn : List (String × M) → String → Except String String)
    (args : Args) (fs : FS)
    (hex : fs.pathExists args.input_folder = true)
    (hdir : fs.isDir args.input_folder = true) :
    ((run loader applyTr exportFn args fs).exitCode = 1 ↔
      ((run loader applyTr exportFn args fs).scene = []
        ∨ ∃ msg, exportFn (run loader applyTr exportFn args fs).scene
            (pjoin "model" args.output_name) = Except.error msg))
    ∧ ((run loader applyTr exportFn args fs).exitCode = 0 →
        (run loader applyTr exportFn args fs).printedCount
          = some (run loader applyTr exportFn args fs).scene.length)
    ∧ (run loader applyTr exportFn args fs).objFilesFound
        = (selectEntries (fs.walk args.input_folder)).length := by
  rw [run_dispatch loader applyTr exportFn args fs hex hdir]
  by_cases hempty :
      (processFiles loader applyTr (selectEntries (fs.walk args.input_folder))).1.isEmpty
  · rw [if_pos hempty]
    refine ⟨⟨fun _ => Or.inl (List.isEmpty_iff.mp hempty), fun _ => rfl⟩, ?_, rfl⟩
    intro h0
    exact absurd h0 (by simp)
  · rw [if_neg hempty]
    cases hexp : exportFn
        (processFiles loader applyTr (selectEntries (fs.walk args.input_folder))).1
        (pjoin "model" args.output_name) with
    | ok c =>
      refine ⟨⟨fun h0 => absurd h0 (by simp), ?_⟩, fun _ => rfl, rfl⟩
      rintro (h | ⟨msg, hmsg⟩)
      · exact absurd (List.isEmpty_iff.mpr h) hempty
      · have h2 : exportFn (processFiles loader applyTr
            (selectEntries (fs.walk args.input_folder))).1
            (pjoin "model" args.output_name) = Except.error msg := hmsg
        rw [hexp] at h2
        exact Except.noConfusion h2
    | error msg =>
      refine ⟨⟨fun _ => Or.inr ⟨msg, hexp⟩, fun _ => rfl⟩, ?_, rfl⟩
      intro h0
      exact absurd h0 (by simp)

theorem C10_scene_driven_witness :
    (run mixedLoader idApply okExport defaultArgs mixedFS).printedCount
        = some (run mixedLoader idApply okExport defaultArgs mixedFS).scene.length
    ∧ (run mixedLoader idApply okExport defaultArgs mixedFS).objFilesFound
        = (selectEntries (mixedFS.walk defaultArgs.input_folder)).length
    ∧ (run okLoader idApply failExport defaultArgs oneFS).exitCode = 1
    ∧ (run mixedLoader idApply okExport defaultArgs mixedFS).scene.length
        ≠ (run mixedLoader idApply okExport defaultArgs mixedFS).objFilesFound :=
  ⟨(C10_scene_driven mixedLoader idApply okExport defaultArgs mixedFS rfl rfl).2.1 (by decide),
   (C10_scene_driven mixedLoader idApply okExport defaultArgs mixedFS rfl rfl).2.2,
   (C10_scene_driven okLoader idApply failExport defaultArgs oneFS rfl rfl).1.mpr
     (Or.inr ⟨"disk full", rfl⟩),
   by decide⟩

/-- C10, counterexample to the claim as stated: with one valid OBJ file
but a failing export the run exits 1 while the scene is nonempty, so the
process does not exit 1 exactly when the scene is empty. -/
theorem C10_cex_export_failure :
    (run okLoader idApply failExport defaultArgs oneFS).exitCode = 1
    ∧ (run okLoader idApply failExport defaultArgs oneFS).scene ≠ [] :=
  ⟨by decide, by decide⟩

end Obj2Glb



